import Mathlib

/-!
Shallow embedding of the forge-build/forge core in Lean 4.

Embedded source:
- pkg/ssh/ssh.go: the remote execution / file transfer client
  (Validate, Connect, Disconnect, Upload, Download, WaitForSSH).
- the shell provisioner controller (Reconcile, the failed-job
  processing loop, GetTerminatedContainersStatusesByPod).

Byte streams are modelled as lists of natural numbers (one per byte);
Go strings as Lean strings; fallible operations return Option.
-/

namespace Forge

/-! ## Bytes-as-naturals and ASCII helpers -/

def byteNL : Nat := 10
def byteSP : Nat := 32
def byteNUL : Nat := 0
def byteC : Nat := 67

/-- `bufio.Reader.ReadString` with delimiter LF: consume bytes up to and
including the first LF, returning the line (LF included) and the rest of
the stream. `none` models hitting EOF before any LF is found; the Go
call then reports `io.EOF`, which the Download reader treats as an
error. -/
def readLine : List Nat → Option (List Nat × List Nat)
  | [] => none
  | b :: bs =>
    if b = byteNL then some ([b], bs)
    else
      match readLine bs with
      | some (line, rest) => some (b :: line, rest)
      | none => none

/-- Go `strings.Split(s, " ")`: split at every single space byte. -/
def splitOnSpace : List Nat → List (List Nat)
  | [] => [[]]
  | b :: bs =>
    if b = byteSP then [] :: splitOnSpace bs
    else
      match splitOnSpace bs with
      | f :: r => (b :: f) :: r
      | [] => [[b]]

/-- ASCII decimal digit test, as used by integer parsing. -/
def isDigit (b : Nat) : Bool := 48 ≤ b && b ≤ 57

/-- Numeric value of an ASCII digit string, most significant digit
first. -/
def digitsVal (l : List Nat) : Nat := l.foldl (fun a d => 10 * a + (d - 48)) 0

/-- Digits of `n` in base `b`, least significant first, as ASCII bytes.
The fuel argument only bounds the recursion; any fuel at least `n`
yields the full digit string (every recursive step strictly shrinks
`n`). -/
def digitsRevFuel (b : Nat) : Nat → Nat → List Nat
  | 0, _ => []
  | fuel + 1, n => if n = 0 then [] else (n % b + 48) :: digitsRevFuel b fuel (n / b)

/-- Go `fmt` verb `%d` applied to a nonnegative integer: decimal digits,
most significant first, `0` printed as `"0"`. -/
def decimalDigits (n : Nat) : List Nat :=
  if n = 0 then [48] else (digitsRevFuel 10 n n).reverse

/-- Go `fmt` verb `%#o` (alternate-form octal) applied to a nonnegative
integer: a leading `0` followed by the octal digits; `0` prints as
`"0"`. -/
def goAltOctal (n : Nat) : List Nat :=
  if n = 0 then [48] else 48 :: (digitsRevFuel 8 n n).reverse

/-- Go `strconv.ParseInt(s, 10, 64)`, second stage: a nonempty digit
string after the optional sign, value required to fit in a signed
64-bit integer. -/
def goParseInt64Core (neg : Bool) (digits : List Nat) : Option Int :=
  if digits = [] then none
  else if ¬ (digits.all isDigit) then none
  else
    let n := digitsVal digits
    if neg then (if n ≤ 2 ^ 63 then some (-(n : Int)) else none)
    else (if n < 2 ^ 63 then some ((n : Int)) else none)

/-- Go `strconv.ParseInt(s, 10, 64)`: optional `+` or `-` sign followed
by a nonempty decimal digit string fitting in int64. -/
def goParseInt64 : List Nat → Option Int
  | [] => none
  | b :: rest =>
    if b = 43 then goParseInt64Core false rest
    else if b = 45 then goParseInt64Core true rest
    else goParseInt64Core false (b :: rest)

/-! ## The copy protocol: Upload writer and Download reader -/

/-- The exact byte sequence the writer goroutine of `SSHClient.Upload`
(ssh.go lines 429-447) emits on the session stdin pipe: the header line
`C<mode %#o> <decimal length> <basename>` terminated by LF, then the
content bytes, then one NUL terminator. -/
def uploadWire (content : List Nat) (mode : Nat) (basename : List Nat) : List Nat :=
  byteC :: goAltOctal mode ++ byteSP :: decimalDigits content.length
    ++ byteSP :: basename ++ byteNL :: (content ++ [byteNUL])

/-- Possible outcomes of the Download reader goroutine. -/
inductive DownloadOutcome where
  /-- `ReadString` failed before a full header line arrived. -/
  | headerEOF
  /-- `ErrSSHInvalidMessageLength`: wrong field count, wrong first-field
  width, or wrong leading byte. -/
  | invalidMessageLength
  /-- the `strconv.ParseInt` error on the length field. -/
  | lengthParseError
  /-- `io.CopyN` hit EOF before the announced byte count arrived. -/
  | dataEOF
  /-- header accepted; `modeField` is the first header field and
  `written` the bytes copied to the destination writer. -/
  | ok (modeField : List Nat) (written : List Nat)
deriving DecidableEq, Repr

/-- Byte-level model of the reader goroutine of `SSHClient.Download`
(ssh.go lines 312-346): read one header line, split it on spaces,
require exactly 3 fields with a first field of exactly 5 bytes starting
with `C`, parse the second field as the length, then copy exactly that
many bytes to the destination. `io.CopyN` with a nonpositive count
copies nothing and reports no error, which `Int.toNat` reproduces. -/
def downloadReader (wire : List Nat) : DownloadOutcome :=
  match readLine wire with
  | none => .headerEOF
  | some (line, rest) =>
    match splitOnSpace line with
    | [f0, f1, _f2] =>
      if f0.length ≠ 5 ∨ f0.head? ≠ some byteC then .invalidMessageLength
      else
        match goParseInt64 f1 with
        | none => .lengthParseError
        | some len =>
          if rest.length < len.toNat then .dataEOF
          else .ok f0 (rest.take len.toNat)
    | _ => .invalidMessageLength

/-! ## SSH client state: Validate, Connect, Disconnect, WaitForSSH -/

/-- `Credentials` (ssh.go 90-95). The mutex only guards concurrent
field access and has no sequential behaviour. -/
structure Credentials where
  sshUser : String
  sshPassword : String
  sshPrivateKey : String
deriving DecidableEq

/-- The sentinel errors of pkg/ssh relevant to the embedded paths. -/
inductive SSHError where
  /-- `ErrInvalidUsername` -/
  | invalidUsername
  /-- `ErrInvalidAuth` -/
  | invalidAuth
  /-- `ErrTimeout` -/
  | timeout
deriving DecidableEq

/-- `SSHClient.Validate` (ssh.go 470-480): empty username, then both
password and private key empty; `none` means valid. -/
def Validate (c : Credentials) : Option SSHError :=
  if c.sshUser = "" then some .invalidUsername
  else if c.sshPassword = "" ∧ c.sshPrivateKey = "" then some .invalidAuth
  else none

/-- The two authentication methods of ssh.go (`KeyAuth`,
`PasswordAuth`). -/
inductive AuthMethod where
  | key
  | password
deriving DecidableEq

/-- The `sshPort` constant (ssh.go 61). -/
def sshPort : Int := 22

/-- Port selection in `Connect` (ssh.go 203-206): start from `sshPort`,
override with the configured port when it is non-zero. -/
def selectPort (clientPort : Int) : Int :=
  if clientPort ≠ 0 then clientPort else sshPort

/-- Where a `Connect` call ends up, observationally. -/
inductive ConnectOutcome where
  /-- Validate failed; returned before any auth selection or dial. -/
  | failedValidation (e : SSHError)
  /-- `readPrivateKey` rejected the configured key; returned before the
  dial. -/
  | keyParseFailed
  /-- the dial is reached, with the single chosen auth method placed in
  the client config and the given port in the address. -/
  | dialed (auth : Option AuthMethod) (port : Int)
deriving DecidableEq

/-- `SSHClient.Connect` (ssh.go 173-225) up to the network dial:
Validate runs first; the private key is selected when non-empty,
otherwise the password when non-empty; the port is the configured one
or 22. `keyParseOk` abstracts whether `readPrivateKey` accepts the
configured key string. -/
def Connect (c : Credentials) (clientPort : Int) (keyParseOk : Bool) : ConnectOutcome :=
  match Validate c with
  | some e => .failedValidation e
  | none =>
    if c.sshPrivateKey ≠ "" then
      if keyParseOk then .dialed (some .key) (selectPort clientPort)
      else .keyParseFailed
    else if c.sshPassword ≠ "" then .dialed (some .password) (selectPort clientPort)
    else .dialed none (selectPort clientPort)

/-- The state of the `close` field of an `SSHClient`: a Go channel
reference that is nil, open, or closed. -/
inductive CloseChan where
  | nilChan
  | openChan
  | closedChan
deriving DecidableEq

/-- Go `close` on a channel: defined only on an open non-nil channel;
closing a nil or already-closed channel panics (`none`). -/
def goClose : CloseChan → Option CloseChan
  | .openChan => some .closedChan
  | _ => none

/-- `SSHClient.Disconnect` (ssh.go 246-258) acting on the `close`
field. The non-blocking `select` takes the receive branch when the
channel is closed (receiving from a closed channel is always ready) and
otherwise falls to the default branch, which under the mutex closes the
channel and sets the field to nil only when the field is non-nil.
`none` would model a panic or a permanently blocked call; the theorems
show Disconnect never produces it. -/
def Disconnect : CloseChan → Option CloseChan
  | .closedChan => some .closedChan
  | .nilChan => some .nilChan
  | .openChan => (goClose .openChan).map (fun _ => .nilChan)

/-- The retry loop of `SSHClient.WaitForSSH` (ssh.go 484-503) under a
Connect that always fails, with time in milliseconds. Each iteration:
one failed Connect attempt taking `connectMs`, then the
`timePassed >= maxWait` check against the wall clock, then the fixed
2-second sleep. Returns (elapsed time at the `ErrTimeout` return,
number of Connect attempts made). -/
def waitLoop (connectMs maxWaitMs elapsed attempts : Nat) : Nat × Nat :=
  let elapsed2 := elapsed + connectMs
  if maxWaitMs ≤ elapsed2 then (elapsed2, attempts + 1)
  else waitLoop connectMs maxWaitMs (elapsed2 + 2000) (attempts + 1)
termination_by maxWaitMs - elapsed
decreasing_by simp_wf; omega

/-- `SSHClient.WaitForSSH` with an always-failing Connect: the loop can
only exit through the timeout break, so the result is `ErrTimeout`
together with the elapsed time and the attempt count. -/
def WaitForSSHFailing (connectMs maxWaitMs : Nat) : SSHError × Nat × Nat :=
  (.timeout, waitLoop connectMs maxWaitMs 0 0)

/-! ## Shell provisioner controller: pod statuses and failed jobs -/

/-- `corev1.ContainerStateTerminated`, the fields the controller
reads. -/
structure ContainerStateTerminated where
  exitCode : Int
  reason : String
  message : String
deriving DecidableEq

/-- `corev1.ContainerStatus`, the fields the controller reads:
`State.Terminated` is nil unless the container terminated. -/
structure ContainerStatus where
  name : String
  terminated : Option ContainerStateTerminated
deriving DecidableEq

/-- The pod status fields walked by
`GetTerminatedContainersStatusesByPod`. -/
structure PodStatus where
  initContainerStatuses : List ContainerStatus
  containerStatuses : List ContainerStatus
deriving DecidableEq

/-- Go map insertion `states[name] = terminated`: replace the binding
when the key is present, append it otherwise. -/
def mapInsert (k : String) (v : ContainerStateTerminated) :
    List (String × ContainerStateTerminated) → List (String × ContainerStateTerminated)
  | [] => [(k, v)]
  | (k2, v2) :: rest => if k2 = k then (k, v) :: rest else (k2, v2) :: mapInsert k v rest

/-- One loop step of `GetTerminatedContainersStatusesByPod`: statuses
whose `State.Terminated` is nil are skipped, the rest are recorded under
the container name. -/
def addTerminated (states : List (String × ContainerStateTerminated)) (s : ContainerStatus) :
    List (String × ContainerStateTerminated) :=
  match s.terminated with
  | none => states
  | some t => mapInsert s.name t states

/-- `GetTerminatedContainersStatusesByPod` (part_000 267-285): a nil pod
yields the empty map; otherwise walk the init-container statuses and
then the main-container statuses, recording terminated ones (a main
container overwrites an init container of the same name, as in a Go
map). -/
def GetTerminatedContainersStatusesByPod (pod : Option PodStatus) :
    List (String × ContainerStateTerminated) :=
  match pod with
  | none => []
  | some p => (p.initContainerStatuses ++ p.containerStatuses).foldl addTerminated []

/-- One failure record `{reason, message, container}` as emitted to the
external outcome sink by the failed-job loop. -/
structure FailureRecord where
  reason : String
  message : String
  container : String
deriving DecidableEq

/-- The per-container body of the loop in `processFailedScanJob`
(part_000 189-200): exit code 0 is skipped (`continue`); otherwise one
failure record carrying the reason, the message and the container name
goes to the external outcome sink. -/
def emitRecord (p : String × ContainerStateTerminated) : Option FailureRecord :=
  if p.2.exitCode = 0 then none
  else some ⟨p.2.reason, p.2.message, p.1⟩

/-- The tail of `processFailedScanJob` (part_000 189-205): run the
per-container loop over the terminated-container map, then delete the
job. The external outcome sink is modelled as the returned record list
(per the spec it is an abstract collaborator); the Bool is whether
`deleteJob` runs, which it does after the loop regardless of how many
records were emitted. -/
def processFailedStatuses (statuses : List (String × ContainerStateTerminated)) :
    List FailureRecord × Bool :=
  (statuses.filterMap emitRecord, true)

/-! ## Shell provisioner controller: Reconcile -/

/-- `corev1.ConfigMapKeySelector`, as referenced by
`spec.RunConfigMapRef`: an opaque reference value. -/
structure RunConfigMapRef where
  name : String
  key : String
deriving DecidableEq

/-- The `ProvisionerSpec` fields `Reconcile` reads and writes: `UUID`
(the correlation id), the inline `Run` script, and the external
`RunConfigMapRef` script reference; all three are pointers in Go,
modelled as options. -/
structure ProvisionerSpec where
  uuid : Option String
  run : Option String
  runConfigMapRef : Option RunConfigMapRef
deriving DecidableEq

/-- The `Build` fields `Reconcile` reads: name, namespace and the
connector credentials secret name. -/
structure BuildInfo where
  name : String
  nspace : String
  credentialsSecretName : String
deriving DecidableEq

/-- `ShellProvisionerRepo` (part_000 18). -/
def ShellProvisionerRepo : String := "ghcr.io/forge-build/forge-provisioner-shell"

/-- `ShellProvisionerTag` (part_000 19). -/
def ShellProvisionerTag : String := "latest"

/-- `ForgeCoreNamespace` (part_000 21). -/
def ForgeCoreNamespace : String := "forge-core"

/-- The execution-unit descriptor assembled through the
`ShellJobBuilder` `With...` calls visible in `Reconcile`: one field per
builder call. The builder chain in view exposes no field or call for an
external script reference. -/
structure ShellJob where
  nspace : String
  buildNamespace : String
  buildName : String
  uuid : String
  repo : String
  tag : String
  sshCredentialsSecretName : String
  scriptToRun : Option String
deriving DecidableEq

/-- Descriptor assembly in `Reconcile` (part_000 28-47). Both `if`
statements run in order; `WithScriptToRun` overwrites the script field.
When `spec.RunConfigMapRef` is non-nil the code passes `*spec.Run` to
`WithScriptToRun`, so with `Run` nil the dereference panics, modelled
as `none`; with `Run` set it copies the inline script, never the
external reference. -/
def assembleShellJob (build : BuildInfo) (id : String) (spec : ProvisionerSpec) :
    Option ShellJob :=
  let base : ShellJob :=
    { nspace := ForgeCoreNamespace, buildNamespace := build.nspace,
      buildName := build.name, uuid := id, repo := ShellProvisionerRepo,
      tag := ShellProvisionerTag,
      sshCredentialsSecretName := build.credentialsSecretName, scriptToRun := none }
  let afterRun :=
    match spec.run with
    | some r => { base with scriptToRun := some r }
    | none => base
  match spec.runConfigMapRef with
  | none => some afterRun
  | some _ =>
    match spec.run with
    | some r => some { afterRun with scriptToRun := some r }
    | none => none

/-- `controllerutil.OperationResult` as distinguished by `Reconcile`:
`OperationResultNone` (the apply changed nothing) versus a performed
create or update. -/
inductive OperationResult where
  /-- `OperationResultNone` -/
  | opNone
  | created
  | updated
deriving DecidableEq

/-- Environment outcome of the `controllerutil.CreateOrUpdate` call. -/
inductive ApplyOutcome where
  | applyError (msg : String)
  | applied (op : OperationResult)
deriving DecidableEq

/-- What one `Reconcile` call produces: the (possibly updated) spec, the
requested requeue delay in seconds (0 = none), whether the
create-or-update apply was invoked, and a surfaced error. -/
structure ReconcileResult where
  spec : ProvisionerSpec
  requeueAfterSeconds : Nat
  appliedJob : Bool
  error : Option String
deriving DecidableEq

/-- `Reconcile` (part_000 24-68). The fresh uuid and the outcome of
`controllerutil.CreateOrUpdate` are environment inputs, passed as
parameters. With the correlation id already set the whole body is
skipped. Otherwise the descriptor is assembled (`none` propagates the
nil-pointer panic), the apply runs, an apply error is surfaced
unchanged without touching the spec, and on success the new id is
written back and a 2-second requeue is requested only when the
operation result is not `OperationResultNone`. -/
def Reconcile (newId : String) (applyOutcome : ApplyOutcome) (build : BuildInfo)
    (spec : ProvisionerSpec) : Option ReconcileResult :=
  match spec.uuid with
  | some _ => some ⟨spec, 0, false, none⟩
  | none =>
    match assembleShellJob build newId spec with
    | none => none
    | some _ =>
      match applyOutcome with
      | .applyError e => some ⟨spec, 0, true, some e⟩
      | .applied op =>
        let spec2 := { spec with uuid := some newId }
        if op ≠ OperationResult.opNone then some ⟨spec2, 2, true, none⟩
        else some ⟨spec2, 0, true, none⟩

/-! ## Copy-protocol lemmas -/

theorem readLine_append (l rest : List Nat) (h : byteNL ∉ l) :
    readLine (l ++ byteNL :: rest) = some (l ++ [byteNL], rest) := by
  induction l with
  | nil => simp [readLine]
  | cons b t ih =>
    simp only [List.mem_cons, not_or] at h
    have hb : ¬ b = byteNL := fun hh => h.1 hh.symm
    simp only [List.cons_append, readLine, List.append_eq]
    rw [if_neg hb, ih h.2]

theorem splitOnSpace_no_space (l : List Nat) (h : byteSP ∉ l) :
    splitOnSpace l = [l] := by
  induction l with
  | nil => rfl
  | cons b t ih =>
    simp only [List.mem_cons, not_or] at h
    have hb : ¬ b = byteSP := fun hh => h.1 hh.symm
    simp only [splitOnSpace, List.append_eq]
    rw [if_neg hb, ih h.2]

theorem splitOnSpace_append (a rest : List Nat) (h : byteSP ∉ a) :
    splitOnSpace (a ++ byteSP :: rest) = a :: splitOnSpace rest := by
  induction a with
  | nil => simp [splitOnSpace]
  | cons b t ih =>
    simp only [List.mem_cons, not_or] at h
    have hb : ¬ b = byteSP := fun hh => h.1 hh.symm
    simp only [List.cons_append, splitOnSpace, List.append_eq]
    rw [if_neg hb, ih h.2]

theorem digitsRevFuel_mem (b : Nat) (hb : 0 < b) :
    ∀ fuel n x, x ∈ digitsRevFuel b fuel n → 48 ≤ x ∧ x < 48 + b := by
  intro fuel
  induction fuel with
  | zero => intro n x hx; simp [digitsRevFuel] at hx
  | succ f ih =>
    intro n x hx
    by_cases hn : n = 0
    · simp [digitsRevFuel, hn] at hx
    · simp only [digitsRevFuel, if_neg hn, List.mem_cons] at hx
      rcases hx with hx | hx
      · subst hx
        have h2 := Nat.mod_lt n hb
        generalize n % b = r at h2 ⊢
        omega
      · exact ih _ _ hx

theorem digitsVal_append_singleton (l : List Nat) (d : Nat) :
    digitsVal (l ++ [d]) = 10 * digitsVal l + (d - 48) := by
  simp [digitsVal, List.foldl_append]

theorem digitsVal_digitsRevFuel (fuel : Nat) :
    ∀ n, n ≤ fuel → digitsVal ((digitsRevFuel 10 fuel n).reverse) = n := by
  induction fuel with
  | zero => intro n hn; interval_cases n; rfl
  | succ f ih =>
    intro n hn
    by_cases hn0 : n = 0
    · subst hn0; rfl
    · have hdiv : n / 10 ≤ f := by
        have : n / 10 < n := Nat.div_lt_self (Nat.pos_of_ne_zero hn0) (by norm_num)
        omega
      simp only [digitsRevFuel, if_neg hn0, List.reverse_cons]
      rw [digitsVal_append_singleton, ih _ hdiv]
      have h10 : n % 10 < 10 := Nat.mod_lt _ (by norm_num)
      omega

theorem decimalDigits_digitsVal (n : Nat) : digitsVal (decimalDigits n) = n := by
  by_cases hn : n = 0
  · subst hn; rfl
  · simp only [decimalDigits, if_neg hn]
    exact digitsVal_digitsRevFuel n n le_rfl

theorem decimalDigits_ne_nil (n : Nat) : decimalDigits n ≠ [] := by
  by_cases hn : n = 0
  · subst hn; simp [decimalDigits]
  · simp only [decimalDigits, if_neg hn]
    obtain ⟨f, rfl⟩ := Nat.exists_eq_succ_of_ne_zero hn
    simp [digitsRevFuel]

theorem decimalDigits_mem (n x : Nat) (hx : x ∈ decimalDigits n) :
    48 ≤ x ∧ x ≤ 57 := by
  by_cases hn : n = 0
  · subst hn
    simp [decimalDigits] at hx
    omega
  · simp only [decimalDigits, if_neg hn, List.mem_reverse] at hx
    have := digitsRevFuel_mem 10 (by norm_num) n n x hx
    omega

theorem goParseInt64_decimalDigits (n : Nat) (hn : n < 2 ^ 63) :
    goParseInt64 (decimalDigits n) = some ((n : Int)) := by
  have hall : (decimalDigits n).all isDigit = true := by
    rw [List.all_eq_true]
    intro x hx
    have := decimalDigits_mem n x hx
    simp only [isDigit, Bool.and_eq_true, decide_eq_true_eq]
    omega
  cases h : decimalDigits n with
  | nil => exact absurd h (decimalDigits_ne_nil n)
  | cons b rest =>
    have hb : 48 ≤ b ∧ b ≤ 57 :=
      decimalDigits_mem n b (by rw [h]; exact List.mem_cons_self _ _)
    have hval : digitsVal (b :: rest) = n := by rw [← h]; exact decimalDigits_digitsVal n
    rw [h] at hall
    have hcore : goParseInt64Core false (b :: rest) = some ((n : Int)) := by
      have h1 : ¬ ((b :: rest) = []) := List.cons_ne_nil b rest
      have h2 : ¬ ¬ ((b :: rest).all isDigit = true) := by
        rw [hall]; exact not_not_intro rfl
      simp only [goParseInt64Core]
      rw [if_neg h1, if_neg h2]
      show (if digitsVal (b :: rest) < 2 ^ 63 then some ((digitsVal (b :: rest) : Int))
        else none) = some ((n : Int))
      rw [hval, if_pos hn]
    simp only [goParseInt64]
    rw [if_neg (show ¬ b = 43 by omega), if_neg (show ¬ b = 45 by omega), hcore]

/-- C1. Round-trip of the copy protocol: for every content `X` and mode
`0644` (420 decimal), the byte stream Upload writes to the stdin pipe
(header `C0644 <len> <basename>` + LF, content, NUL) is accepted by the
Download header parser, the mode field carried in the header is exactly
the `C`-prefixed octal rendering of mode 0644, and the bytes written to
the destination writer are byte-identical to `X`. The basename must be
free of space and LF bytes (as any single path component printed into
the header must be for the header to stay well formed), and the length
must fit in int64. -/
theorem upload_download_roundtrip (X basename : List Nat)
    (hsp : byteSP ∉ basename) (hnl : byteNL ∉ basename)
    (hlen : X.length < 2 ^ 63) :
    downloadReader (uploadWire X 420 basename)
      = .ok (byteC :: goAltOctal 420) X := by
  have hdnl : ∀ x ∈ decimalDigits X.length, x ≠ byteNL := by
    intro x hx
    have := decimalDigits_mem _ x hx
    simp only [byteNL]
    omega
  have hdsp : byteSP ∉ decimalDigits X.length := by
    intro hx
    have := decimalDigits_mem _ _ hx
    simp only [byteSP] at this
    omega
  have hbody : byteNL ∉ (byteC :: goAltOctal 420) ++
      byteSP :: (decimalDigits X.length ++ byteSP :: basename) := by
    intro hx
    simp only [List.mem_append, List.mem_cons] at hx
    rcases hx with hx | hx | hx
    · revert hx; decide
    · simp [byteNL, byteSP] at hx
    · rcases hx with hx | hx
      · exact hdnl _ hx rfl
      · rcases hx with hx | hx
        · simp [byteNL, byteSP] at hx
        · exact hnl hx
  have hwire : uploadWire X 420 basename =
      ((byteC :: goAltOctal 420) ++ byteSP :: (decimalDigits X.length ++ byteSP :: basename))
        ++ byteNL :: (X ++ [byteNUL]) := by
    simp [uploadWire, List.append_assoc]
  have h1 : readLine (uploadWire X 420 basename) =
      some (((byteC :: goAltOctal 420) ++
        byteSP :: (decimalDigits X.length ++ byteSP :: basename)) ++ [byteNL],
        X ++ [byteNUL]) := by
    rw [hwire]; exact readLine_append _ _ hbody
  have h2 : splitOnSpace (((byteC :: goAltOctal 420) ++
      byteSP :: (decimalDigits X.length ++ byteSP :: basename)) ++ [byteNL]) =
      [byteC :: goAltOctal 420, decimalDigits X.length, basename ++ [byteNL]] := by
    have hassoc : ((byteC :: goAltOctal 420) ++
        byteSP :: (decimalDigits X.length ++ byteSP :: basename)) ++ [byteNL] =
        (byteC :: goAltOctal 420) ++
          byteSP :: (decimalDigits X.length ++ byteSP :: (basename ++ [byteNL])) := by
      simp [List.append_assoc]
    rw [hassoc, splitOnSpace_append _ _ (by decide),
      splitOnSpace_append _ _ hdsp,
      splitOnSpace_no_space _ (by
        intro hx
        rcases List.mem_append.mp hx with hx | hx
        · exact hsp hx
        · simp [byteSP, byteNL] at hx)]
  rw [downloadReader, h1]
  simp only [h2]
  rw [if_neg (by decide), goParseInt64_decimalDigits _ hlen]
  simp only [Int.toNat_ofNat, List.length_append, List.length_cons, List.length_nil]
  rw [if_neg (by omega)]
  simp [List.take_left]

/-- Witness for the round-trip theorem at content `hi`, basename `f`. -/
theorem upload_download_roundtrip_witness :
    byteSP ∉ ([102] : List Nat) ∧ byteNL ∉ ([102] : List Nat) ∧
    ([104, 105] : List Nat).length < 2 ^ 63 ∧
    downloadReader (uploadWire [104, 105] 420 [102])
      = DownloadOutcome.ok (byteC :: goAltOctal 420) [104, 105] :=
  ⟨by decide, by decide, by decide,
    upload_download_roundtrip [104, 105] [102] (by decide) (by decide) (by decide)⟩

/-- C4 counterexample: the download header `C0644 abc f` + LF (bytes
below) passes the field-count and first-field checks and then fails in
`strconv.ParseInt` on `abc`, so the reader surfaces the numeric parse
error and not `ErrSSHInvalidMessageLength`, contrary to the claim that
all three malformed headers fail with the invalid-message-length
error. -/
theorem download_nonNumeric_length_error_not_invalid :
    downloadReader [67, 48, 54, 52, 52, 32, 97, 98, 99, 32, 102, 10]
      = DownloadOutcome.lengthParseError ∧
    DownloadOutcome.lengthParseError ≠ DownloadOutcome.invalidMessageLength := by
  decide

/-- C4 amended. Each of the three malformed headers fails immediately
(the reader is a total function of the received bytes and returns
without waiting for more input): the 2-field header `C644 10` and the
wrong-leading-byte header `X0644 10 f` with
`ErrSSHInvalidMessageLength`, and the non-numeric-length header
`C0644 abc f` with the numeric parse error from the length parser. -/
theorem download_malformed_headers_fail_immediately :
    downloadReader [67, 54, 52, 52, 32, 49, 48, 10] = DownloadOutcome.invalidMessageLength ∧
    downloadReader [88, 48, 54, 52, 52, 32, 49, 48, 32, 102, 10]
      = DownloadOutcome.invalidMessageLength ∧
    downloadReader [67, 48, 54, 52, 52, 32, 97, 98, 99, 32, 102, 10]
      = DownloadOutcome.lengthParseError := by
  decide

/-! ## Validate / Connect lemmas -/

theorem Validate_none_iff (c : Credentials) :
    Validate c = none ↔
      c.sshUser ≠ "" ∧ (c.sshPassword ≠ "" ∨ c.sshPrivateKey ≠ "") := by
  unfold Validate
  by_cases h1 : c.sshUser = ""
  · simp [h1]
  · by_cases h2 : c.sshPassword = "" ∧ c.sshPrivateKey = ""
    · rw [if_neg h1, if_pos h2]
      simp [h1, h2.1, h2.2]
    · rw [if_neg h1, if_neg h2]
      simp only [not_and] at h2
      simp [h1]
      tauto

/-- C6. Connect runs Validate before any network attempt: a client
failing Validate yields exactly the validation error and never reaches
the dial. After a successful Validate exactly one auth method is
chosen, the private key taking precedence over the password whenever it
is non-empty (the password is then used exactly when the key is empty,
in which case Validate guarantees it is non-empty). -/
theorem connect_validates_first_and_key_precedence (c : Credentials) (p : Int) (k : Bool) :
    (∀ e, Validate c = some e → Connect c p k = .failedValidation e)
    ∧ (Validate c = none → c.sshPrivateKey ≠ "" →
        Connect c p k =
          (if k then ConnectOutcome.dialed (some .key) (selectPort p)
           else .keyParseFailed))
    ∧ (Validate c = none → c.sshPrivateKey = "" →
        Connect c p k = .dialed (some .password) (selectPort p)) := by
  refine ⟨?_, ?_, ?_⟩
  · intro e he
    simp only [Connect, he]
  · intro hv hkey
    simp only [Connect, hv]
    rw [if_pos hkey]
  · intro hv hkey
    have hpw : c.sshPassword ≠ "" := by
      rcases (Validate_none_iff c).mp hv with ⟨h1, h2 | h2⟩
      · exact h2
      · exact absurd hkey h2
    simp only [Connect, hv]
    rw [if_neg (not_not_intro hkey), if_pos hpw]

/-- Witness: both key and password configured, the key wins. -/
theorem connect_key_precedence_witness :
    Connect ⟨"user", "pw", "keydata"⟩ 0 true
      = (if true then ConnectOutcome.dialed (some .key) (selectPort 0)
         else .keyParseFailed) :=
  (connect_validates_first_and_key_precedence ⟨"user", "pw", "keydata"⟩ 0 true).2.1
    (by decide) (by decide)

/-- C10. Whenever Connect reaches the dial, the dialed port is 22 when
the configured Port field is 0 and exactly the configured port
otherwise. -/
theorem connect_dials_selected_port (c : Credentials) (p : Int) (k : Bool)
    (a : Option AuthMethod) (q : Int) (h : Connect c p k = .dialed a q) :
    (p = 0 → q = 22) ∧ (p ≠ 0 → q = p) := by
  have hq : q = selectPort p := by
    cases hv : Validate c with
    | some e =>
      simp only [Connect, hv] at h
      exact absurd h (by simp)
    | none =>
      simp only [Connect, hv] at h
      split_ifs at h <;> simp_all
  refine ⟨fun hp => ?_, fun hp => ?_⟩
  · subst hp
    simp [hq, selectPort, sshPort]
  · simp [hq, selectPort, hp]

/-- Witness: a password-only client with Port 0 dials 22. -/
theorem connect_dials_selected_port_witness :
    Connect ⟨"u", "pw", ""⟩ 0 true = .dialed (some .password) 22 ∧
    (((0 : Int) = 0 → (22 : Int) = 22) ∧ ((0 : Int) ≠ 0 → (22 : Int) = 0)) :=
  ⟨by decide,
    connect_dials_selected_port ⟨"u", "pw", ""⟩ 0 true (some .password) 22 (by decide)⟩

/-- C9. Disconnect is idempotent and never panics or blocks: whatever
state one Disconnect call leaves the close channel in, a second call
succeeds (no panic from `close`, no blocked receive) and leaves the
state unchanged. -/
theorem disconnect_second_call_noop (s s2 : CloseChan) (h : Disconnect s = some s2) :
    Disconnect s2 = some s2 := by
  cases s <;> simp only [Disconnect, goClose, Option.map, Option.some.injEq] at h <;>
    subst h <;> rfl

/-- Witness: a connected client (open channel) disconnects to the nil
state, and a second Disconnect is a safe no-op. -/
theorem disconnect_second_call_noop_witness :
    Disconnect .openChan = some .nilChan ∧ Disconnect .nilChan = some .nilChan :=
  ⟨by decide, disconnect_second_call_noop .openChan .nilChan (by decide)⟩

/-! ## WaitForSSH lemmas -/

theorem waitLoop_eq (c m e a : Nat) :
    waitLoop c m e a =
      if m ≤ e + c then (e + c, a + 1) else waitLoop c m (e + c + 2000) (a + 1) := by
  rw [waitLoop]

theorem waitLoop_five_seconds (c : Nat) (hc : c ≤ 2000) :
    2 ≤ (waitLoop c 5000 0 0).2 ∧ (waitLoop c 5000 0 0).2 ≤ 4 ∧
    5000 ≤ (waitLoop c 5000 0 0).1 ∧ (waitLoop c 5000 0 0).1 ≤ 5000 + 2000 + c := by
  rw [waitLoop_eq, if_neg (by omega), waitLoop_eq]
  by_cases h2 : 5000 ≤ 0 + c + 2000 + c
  · rw [if_pos h2]
    dsimp only
    omega
  · rw [if_neg h2, waitLoop_eq]
    by_cases h3 : 5000 ≤ 0 + c + 2000 + c + 2000 + c
    · rw [if_pos h3]
      dsimp only
      omega
    · rw [if_neg h3, waitLoop_eq, if_pos (by omega)]
      dsimp only
      omega

/-- C5 counterexample: with a Connect failing instantly, the attempts
run at elapsed times 0, 2000, 4000 and 6000 ms; only after the fourth
failed attempt is the elapsed time at least 5000 ms, so the loop makes
4 Connect attempts, not between 2 and 3 as the claim states, and
returns the timeout error at 6000 ms. -/
theorem waitForSSH_instant_failure_four_attempts :
    WaitForSSHFailing 0 5000 = (.timeout, 6000, 4) ∧
    ¬ ((WaitForSSHFailing 0 5000).2.2 ≤ 3) := by
  have h : WaitForSSHFailing 0 5000 = (.timeout, 6000, 4) := by
    unfold WaitForSSHFailing
    rw [waitLoop_eq, if_neg (by norm_num), waitLoop_eq, if_neg (by norm_num),
      waitLoop_eq, if_neg (by norm_num), waitLoop_eq, if_pos (by norm_num)]
  refine ⟨h, ?_⟩
  rw [h]
  norm_num

/-- C5 amended. With maxWait 5000 ms and an always-failing Connect
taking at most one 2000 ms tick per attempt, WaitForSSH returns the
timeout error, makes between 2 and 4 Connect attempts (4 exactly when
the failure is near-instant), and the elapsed time at the timeout
return is at least maxWait and at most maxWait plus one 2-second tick
plus one connect duration. -/
theorem waitForSSH_timeout_attempt_bounds (c : Nat) (hc : c ≤ 2000) :
    (WaitForSSHFailing c 5000).1 = SSHError.timeout ∧
    2 ≤ (WaitForSSHFailing c 5000).2.2 ∧ (WaitForSSHFailing c 5000).2.2 ≤ 4 ∧
    5000 ≤ (WaitForSSHFailing c 5000).2.1 ∧
    (WaitForSSHFailing c 5000).2.1 ≤ 5000 + 2000 + c := by
  have h := waitLoop_five_seconds c hc
  exact ⟨rfl, h.1, h.2.1, h.2.2.1, h.2.2.2⟩

/-- Witness for the amended WaitForSSH bounds at an instantly failing
Connect. -/
theorem waitForSSH_timeout_attempt_bounds_witness :
    (0 : Nat) ≤ 2000 ∧
    ((WaitForSSHFailing 0 5000).1 = SSHError.timeout ∧
      2 ≤ (WaitForSSHFailing 0 5000).2.2 ∧ (WaitForSSHFailing 0 5000).2.2 ≤ 4 ∧
      5000 ≤ (WaitForSSHFailing 0 5000).2.1 ∧
      (WaitForSSHFailing 0 5000).2.1 ≤ 5000 + 2000 + 0) :=
  ⟨by norm_num, waitForSSH_timeout_attempt_bounds 0 (by norm_num)⟩

/-! ## Failed-job processing lemmas -/

theorem mapInsert_keys_subset (k : String) (v : ContainerStateTerminated)
    (l : List (String × ContainerStateTerminated)) :
    ∀ x ∈ (mapInsert k v l).map Prod.fst, x = k ∨ x ∈ l.map Prod.fst := by
  induction l with
  | nil => simp [mapInsert]
  | cons hd tl ih =>
    obtain ⟨k2, v2⟩ := hd
    intro x hx
    simp only [mapInsert] at hx
    by_cases hk : k2 = k
    · rw [if_pos hk] at hx
      simp only [List.map_cons, List.mem_cons] at hx ⊢
      tauto
    · rw [if_neg hk] at hx
      simp only [List.map_cons, List.mem_cons] at hx ⊢
      rcases hx with hx | hx
      · tauto
      · rcases ih x hx with h | h <;> tauto

theorem mapInsert_keys_nodup (k : String) (v : ContainerStateTerminated)
    (l : List (String × ContainerStateTerminated)) (h : (l.map Prod.fst).Nodup) :
    ((mapInsert k v l).map Prod.fst).Nodup := by
  induction l with
  | nil => simp [mapInsert]
  | cons hd tl ih =>
    obtain ⟨k2, v2⟩ := hd
    simp only [List.map_cons, List.nodup_cons] at h
    simp only [mapInsert]
    by_cases hk : k2 = k
    · rw [if_pos hk]
      subst hk
      simp only [List.map_cons, List.nodup_cons]
      exact ⟨h.1, h.2⟩
    · rw [if_neg hk]
      simp only [List.map_cons, List.nodup_cons]
      refine ⟨?_, ih h.2⟩
      intro hx
      rcases mapInsert_keys_subset k v tl k2 hx with h2 | h2
      · exact hk h2
      · exact h.1 h2

theorem foldl_addTerminated_nodup (ss : List ContainerStatus) :
    ∀ st, (st.map Prod.fst).Nodup → (((ss.foldl addTerminated st)).map Prod.fst).Nodup := by
  induction ss with
  | nil => intro st h; simpa using h
  | cons s tl ih =>
    intro st h
    simp only [List.foldl_cons]
    apply ih
    unfold addTerminated
    cases s.terminated with
    | none => exact h
    | some t => exact mapInsert_keys_nodup _ _ _ h

theorem statuses_keys_nodup (pod : Option PodStatus) :
    ((GetTerminatedContainersStatusesByPod pod).map Prod.fst).Nodup := by
  cases pod with
  | none => simp [GetTerminatedContainersStatusesByPod]
  | some p => exact foldl_addTerminated_nodup _ [] (by simp)

theorem count_records_zero (name : String) (l : List (String × ContainerStateTerminated))
    (h : name ∉ l.map Prod.fst) :
    (l.filterMap emitRecord).countP (fun r => r.container == name) = 0 := by
  induction l with
  | nil => rfl
  | cons hd tl ih =>
    obtain ⟨k, v⟩ := hd
    simp only [List.map_cons, List.mem_cons, not_or] at h
    simp only [List.filterMap_cons, emitRecord]
    by_cases hv : v.exitCode = 0
    · rw [if_pos hv]
      exact ih h.2
    · rw [if_neg hv]
      simp only [List.countP_cons, ih h.2]
      have hkn : (k == name) = false := by
        simp only [beq_eq_false_iff_ne, ne_eq]
        exact fun hh => h.1 hh.symm
      simp [hkn]

theorem count_records_mem (l : List (String × ContainerStateTerminated))
    (hnd : (l.map Prod.fst).Nodup) :
    ∀ name t, (name, t) ∈ l →
      (l.filterMap emitRecord).countP (fun r => r.container == name) =
        if t.exitCode = 0 then 0 else 1 := by
  induction l with
  | nil => intro name t h; simp at h
  | cons hd tl ih =>
    obtain ⟨k, v⟩ := hd
    simp only [List.map_cons, List.nodup_cons] at hnd
    intro name t hmem
    rcases List.mem_cons.mp hmem with heq | hmem2
    · obtain ⟨rfl, rfl⟩ : k = name ∧ v = t := by
        have := heq.symm
        simp only [Prod.mk.injEq] at this
        exact this
      simp only [List.filterMap_cons, emitRecord]
      by_cases hv : v.exitCode = 0
      · rw [if_pos hv, if_pos hv]
        exact count_records_zero _ _ hnd.1
      · rw [if_neg hv, if_neg hv]
        simp only [List.countP_cons, count_records_zero _ _ hnd.1]
        simp
    · have hne : ¬ (k = name) := by
        intro hk
        subst hk
        exact hnd.1 (List.mem_map.mpr ⟨(k, t), hmem2, rfl⟩)
      simp only [List.filterMap_cons, emitRecord]
      by_cases hv : v.exitCode = 0
      · rw [if_pos hv]
        exact ih hnd.2 name t hmem2
      · rw [if_neg hv]
        simp only [List.countP_cons, ih hnd.2 name t hmem2]
        simp [hne]

/-- C2. For a unit whose first condition is Failed, against the
terminated-container map of its backing pod: the job is deleted after
the loop regardless of how many failure records were emitted; every
container whose terminated exit code is non-zero contributes exactly
one failure record naming it (and that record carries the reason and
message of its terminated state), and containers with exit code 0
contribute none. -/
theorem failedJob_per_container_records (pod : Option PodStatus) (name : String)
    (t : ContainerStateTerminated)
    (hmem : (name, t) ∈ GetTerminatedContainersStatusesByPod pod) :
    (processFailedStatuses (GetTerminatedContainersStatusesByPod pod)).2 = true ∧
    ((processFailedStatuses (GetTerminatedContainersStatusesByPod pod)).1.countP
        (fun r => r.container == name) = if t.exitCode = 0 then 0 else 1) ∧
    (t.exitCode ≠ 0 →
      (⟨t.reason, t.message, name⟩ : FailureRecord) ∈
        (processFailedStatuses (GetTerminatedContainersStatusesByPod pod)).1) := by
  refine ⟨rfl, ?_, ?_⟩
  · exact count_records_mem _ (statuses_keys_nodup pod) name t hmem
  · intro hexit
    exact List.mem_filterMap.mpr ⟨(name, t), hmem, by simp [emitRecord, hexit]⟩

/-- Witness: a pod with an init container that exited 0 and a main
container that exited 7 yields exactly one failure record, for the main
container, and the job is deleted. -/
theorem failedJob_per_container_records_witness :
    (("main", (⟨7, "Error", "boom"⟩ : ContainerStateTerminated)) ∈
      GetTerminatedContainersStatusesByPod
        (some ⟨[⟨"setup", some ⟨0, "Completed", ""⟩⟩], [⟨"main", some ⟨7, "Error", "boom"⟩⟩]⟩)) ∧
    ((processFailedStatuses (GetTerminatedContainersStatusesByPod
        (some ⟨[⟨"setup", some ⟨0, "Completed", ""⟩⟩],
          [⟨"main", some ⟨7, "Error", "boom"⟩⟩]⟩))).2 = true ∧
      ((processFailedStatuses (GetTerminatedContainersStatusesByPod
          (some ⟨[⟨"setup", some ⟨0, "Completed", ""⟩⟩],
            [⟨"main", some ⟨7, "Error", "boom"⟩⟩]⟩))).1.countP
          (fun r => r.container == "main") =
        if (7 : Int) = 0 then 0 else 1) ∧
      ((7 : Int) ≠ 0 →
        (⟨"Error", "boom", "main"⟩ : FailureRecord) ∈
          (processFailedStatuses (GetTerminatedContainersStatusesByPod
            (some ⟨[⟨"setup", some ⟨0, "Completed", ""⟩⟩],
              [⟨"main", some ⟨7, "Error", "boom"⟩⟩]⟩))).1)) :=
  ⟨by decide,
    failedJob_per_container_records
      (some ⟨[⟨"setup", some ⟨0, "Completed", ""⟩⟩], [⟨"main", some ⟨7, "Error", "boom"⟩⟩]⟩)
      "main" ⟨7, "Error", "boom"⟩ (by decide)⟩

/-! ## Reconcile theorems -/

/-- C3. When the correlation id is already set, Ensure (Reconcile) is a
no-op: no descriptor is assembled, no create-or-update apply is
performed, the spec (its uuid included) is returned unchanged, no
requeue is requested and no error is surfaced. -/
theorem reconcile_uuid_set_noop (newId : String) (ao : ApplyOutcome) (b : BuildInfo)
    (spec : ProvisionerSpec) (u : String) (h : spec.uuid = some u) :
    Reconcile newId ao b spec = some ⟨spec, 0, false, none⟩ := by
  unfold Reconcile
  rw [h]

/-- Witness: a second Ensure with the id already set changes nothing. -/
theorem reconcile_uuid_set_noop_witness :
    Reconcile "newid" (.applied .created) ⟨"b", "ns", "cred"⟩
        ⟨some "old", some "echo hi", none⟩
      = some ⟨⟨some "old", some "echo hi", none⟩, 0, false, none⟩ :=
  reconcile_uuid_set_noop "newid" (.applied .created) ⟨"b", "ns", "cred"⟩
    ⟨some "old", some "echo hi", none⟩ "old" rfl

/-- C7: evaluating Reconcile at the failing input. With the script
source exclusively an external reference (`RunConfigMapRef` set, `Run`
nil), the builder chain executes `WithScriptToRun(*spec.Run)` and
dereferences the nil `Run` pointer: descriptor assembly panics
(modelled as `none`), and no execution-unit descriptor carrying the
external reference is ever assembled (the builder in view has no
external-reference field at all). -/
theorem reconcile_external_ref_nil_deref :
    assembleShellJob ⟨"b", "ns", "cred"⟩ "id2"
        ⟨none, none, some ⟨"scripts", "run.sh"⟩⟩ = none ∧
    Reconcile "id2" (.applied .created) ⟨"b", "ns", "cred"⟩
        ⟨none, none, some ⟨"scripts", "run.sh"⟩⟩ = none :=
  ⟨rfl, rfl⟩

/-- C8 counterexample: when the create-or-update apply succeeds with
`OperationResultNone` (the job already existed unchanged), Reconcile
writes the new id back but requests no requeue delay, contrary to the
claim that a successful apply always requests the fixed 2-second
requeue. -/
theorem reconcile_opNone_no_requeue :
    Reconcile "id1" (.applied .opNone) ⟨"b", "ns", "cred"⟩ ⟨none, some "echo", none⟩
      = some ⟨⟨some "id1", some "echo", none⟩, 0, true, none⟩ ∧
    (0 : Nat) ≠ 2 := by
  exact ⟨by decide, by decide⟩

/-- C8 amended. With the correlation id unset and a descriptor that
assembles without panicking, a successful create-or-update apply always
writes the new correlation id back onto the spec, and the fixed
2-second requeue delay is requested exactly when the apply actually
created or updated the unit (operation result not
`OperationResultNone`); a no-op apply requests no requeue. -/
theorem reconcile_applied_writes_uuid (newId : String) (op : OperationResult)
    (b : BuildInfo) (spec : ProvisionerSpec) (h : spec.uuid = none)
    (ha : (assembleShellJob b newId spec).isSome = true) :
    Reconcile newId (.applied op) b spec =
      some ⟨{ spec with uuid := some newId },
        (if op = OperationResult.opNone then 0 else 2), true, none⟩ := by
  unfold Reconcile
  rw [h]
  obtain ⟨j, hj⟩ := Option.isSome_iff_exists.mp ha
  rw [hj]
  by_cases hop : op = OperationResult.opNone
  · subst hop
    simp
  · simp [hop]

/-- Witness: an apply that created the unit yields the id write-back
and the 2-second requeue. -/
theorem reconcile_applied_writes_uuid_witness :
    ((⟨none, some "echo", none⟩ : ProvisionerSpec).uuid = none) ∧
    ((assembleShellJob ⟨"b", "ns", "cred"⟩ "id9" ⟨none, some "echo", none⟩).isSome = true) ∧
    Reconcile "id9" (.applied .created) ⟨"b", "ns", "cred"⟩ ⟨none, some "echo", none⟩
      = some ⟨⟨some "id9", some "echo", none⟩, 2, true, none⟩ :=
  ⟨rfl, by decide,
    by
      have h := reconcile_applied_writes_uuid "id9" .created ⟨"b", "ns", "cred"⟩
        ⟨none, some "echo", none⟩ rfl (by decide)
      simpa using h⟩

end Forge
